import Mathlib

/-!
Verification of the flame-limit rate limiter.

We give a shallow embedding of the rate-decision engine: the key-value
store contract, the three counting strategies (fixed window, sliding
window, token bucket), the in-memory store, the path-weight resolver and
the construction-time configuration validation.  Times are modelled as
integer milliseconds, token counts as rationals (the source uses JS
numbers; the token arithmetic is exact rational arithmetic there for the
inputs of interest), and the store as a function from string keys to
optional (value, expireAt) entries, mirroring value-semantics persistence
as in the store contract and the networked store.  Window starts use
Int.fdiv, the flooring division that matches Math.floor on division.
-/

namespace FlameLimit

/-! ## Data model, stores, strategies, resolvers (definitions) -/

/-- The decision record returned by every strategy's consume. -/
structure Decision where
  limited : Bool
  remaining : ℤ
  resetTime : ℤ
  consumed : ℤ
deriving DecidableEq, Repr

/-- Counter record used by the fixed and sliding window strategies. -/
structure CRecord where
  count : ℤ
  resetTime : ℤ
deriving DecidableEq, Repr

/-- Token bucket record used by the token bucket strategy. -/
structure TBBucket where
  tokens : ℚ
  lastRefill : ℤ
  resetTime : ℤ
deriving DecidableEq, Repr

/-- A key-value store with per-entry expiry stamp (value, expireAt). -/
def KVStore (V : Type) : Type := String → Option (V × ℤ)

/-- The empty store. -/
def kvEmpty {V : Type} : KVStore V := fun _ => none

/-- Store read as the strategies see it: the raw stored value.  Mirrors
MemoryStore.get, which performs no expiry check. -/
def kvGet {V : Type} (s : KVStore V) (k : String) : Option V :=
  (s k).map Prod.fst

/-- Store write with time-to-live: the entry's expiry stamp becomes
now + ttl, as in MemoryStore.set. -/
def kvSet {V : Type} (s : KVStore V) (k : String) (v : V) (ttl now : ℤ) :
    KVStore V :=
  fun k' => if k' = k then some (v, now + ttl) else s k'

/-- Store delete. -/
def kvDel {V : Type} (s : KVStore V) (k : String) : KVStore V :=
  fun k' => if k' = k then none else s k'

/-- Epoch-aligned window start: Math.floor(now / windowMs) * windowMs. -/
def fwWindowStart (windowMs now : ℤ) : ℤ :=
  Int.fdiv now windowMs * windowMs

/-- The store key for a fixed (or sliding) window record. -/
def windowKey (key : String) (windowStart : ℤ) : String :=
  key ++ (":") ++ toString windowStart

/-- The record loaded for the window containing now, or a lazily
initialized zero record whose resetTime is the window's end.  Both window
strategies load their current record this way. -/
def fwLoad (windowMs : ℤ) (s : KVStore CRecord) (key : String)
    (now : ℤ) : CRecord :=
  (kvGet s (windowKey key (fwWindowStart windowMs now))).getD
    { count := 0, resetTime := fwWindowStart windowMs now + windowMs }

/-- FixedWindowStrategy.consume.  Returns the decision and the updated
store. -/
def fwConsume (limit windowMs : ℤ) (s : KVStore CRecord) (key : String)
    (now weight : ℤ) : Decision × KVStore CRecord :=
  let record := fwLoad windowMs s key now
  let newCount := record.count + weight
  let remaining := max 0 (limit - newCount)
  let limited : Bool := decide (limit < newCount)
  let s' := if limited then s
    else kvSet s (windowKey key (fwWindowStart windowMs now))
      { record with count := newCount } windowMs now
  ({ limited := limited, remaining := remaining,
     resetTime := record.resetTime,
     consumed := if limited then 0 else weight }, s')

/-- FixedWindowStrategy.resetKey: deletes the current window's record. -/
def fwResetKey (windowMs : ℤ) (s : KVStore CRecord) (key : String)
    (now : ℤ) : KVStore CRecord :=
  kvDel s (windowKey key (fwWindowStart windowMs now))

/-- Refill rate: limit / windowMs tokens per millisecond. -/
def tbRefillRate (limit windowMs : ℤ) : ℚ :=
  (limit : ℚ) / (windowMs : ℚ)

/-- The store key of an identity's token bucket. -/
def tbKey (key : String) : String := key ++ (":token")

/-- The bucket loaded from the store, or a freshly initialized full
bucket. -/
def tbBucket0 (limit windowMs : ℤ) (s : KVStore TBBucket) (key : String)
    (now : ℤ) : TBBucket :=
  (kvGet s (tbKey key)).getD
    { tokens := (limit : ℚ), lastRefill := now, resetTime := now + windowMs }

/-- The refill step: if time has elapsed since lastRefill, add
elapsed * refillRate tokens, capped at the limit, and advance
lastRefill. -/
def tbRefill (limit windowMs now : ℤ) (b : TBBucket) : TBBucket :=
  let elapsed := now - b.lastRefill
  if 0 < elapsed then
    { b with
        tokens := min (limit : ℚ) (b.tokens + (elapsed : ℚ) * tbRefillRate limit windowMs),
        lastRefill := now }
  else b

/-- The debit step on admission: subtract the weight and, when the bucket
hits exactly zero, advance resetTime to the projected refill instant. -/
def tbDebit (limit windowMs now weight : ℤ) (b : TBBucket) : TBBucket :=
  let t := b.tokens - (weight : ℚ)
  { b with
      tokens := t,
      resetTime := if t = 0 then
          now + Int.ceil ((weight : ℚ) / tbRefillRate limit windowMs)
        else b.resetTime }

/-- TokenBucketStrategy.consume.  Returns the decision and the updated
store; the bucket is persisted (TTL = 2 * windowMs) only on admission. -/
def tbConsume (limit windowMs : ℤ) (s : KVStore TBBucket) (key : String)
    (now weight : ℤ) : Decision × KVStore TBBucket :=
  let b1 := tbRefill limit windowMs now (tbBucket0 limit windowMs s key now)
  let remaining : ℚ := max 0 (b1.tokens - (weight : ℚ))
  let limited : Bool := decide (b1.tokens < (weight : ℚ))
  let b2 := tbDebit limit windowMs now weight b1
  let s' := if limited then s else kvSet s (tbKey key) b2 (windowMs * 2) now
  ({ limited := limited,
     remaining := Int.floor remaining,
     resetTime := if limited then
         now + Int.ceil (((weight : ℚ) - b1.tokens) / tbRefillRate limit windowMs)
       else b2.resetTime,
     consumed := if limited then 0 else weight }, s')

/-- TokenBucketStrategy.resetKey: deletes the identity's bucket. -/
def tbResetKey (s : KVStore TBBucket) (key : String) : KVStore TBBucket :=
  kvDel s (tbKey key)

/-- The sliding window decision record: the source returns two extra
fields beyond the common Decision shape. -/
structure SWDecision where
  limited : Bool
  remaining : ℤ
  resetTime : ℤ
  consumed : ℤ
  currentCount : ℤ
  previousCount : ℤ
deriving DecidableEq, Repr

/-- The previous window's stored count (zero when absent). -/
def swPrevCount (windowMs : ℤ) (s : KVStore CRecord) (key : String)
    (now : ℤ) : ℤ :=
  ((kvGet s (windowKey key (fwWindowStart windowMs now - windowMs))).map
    CRecord.count).getD 0

/-- The fraction of the previous window still in scope:
1 - (now - currentWindow) / windowMs. -/
def swTimeRatio (windowMs now : ℤ) : ℚ :=
  1 - ((now - fwWindowStart windowMs now : ℤ) : ℚ) / (windowMs : ℚ)

/-- floor(previousCount * timeRatio), the blended share of the previous
window counted against the limit. -/
def swEffPrev (windowMs : ℤ) (s : KVStore CRecord) (key : String)
    (now : ℤ) : ℤ :=
  Int.floor ((swPrevCount windowMs s key now : ℚ) * swTimeRatio windowMs now)

/-- SlidingWindowStrategy.consume.  Blends the previous window's count,
weighted by the fraction of the previous window still in scope, into the
admission test; on admission only the current record is written, with
TTL = 2 * windowMs. -/
def swConsume (limit windowMs : ℤ) (s : KVStore CRecord) (key : String)
    (now weight : ℤ) : SWDecision × KVStore CRecord :=
  let currentRecord := fwLoad windowMs s key now
  let effectivePreviousCount := swEffPrev windowMs s key now
  let newCount := currentRecord.count + weight
  let effectiveNewTotal := effectivePreviousCount + newCount
  let remaining := max 0 (limit - effectiveNewTotal)
  let limited : Bool := decide (limit < effectiveNewTotal)
  let s' := if limited then s
    else kvSet s (windowKey key (fwWindowStart windowMs now))
      { currentRecord with count := newCount } (windowMs * 2) now
  ({ limited := limited, remaining := remaining,
     resetTime := currentRecord.resetTime,
     consumed := if limited then 0 else weight,
     currentCount := if limited then currentRecord.count else newCount,
     previousCount := effectivePreviousCount }, s')

/-- SlidingWindowStrategy.resetKey: deletes the current and previous
window records. -/
def swResetKey (windowMs : ℤ) (s : KVStore CRecord) (key : String)
    (now : ℤ) : KVStore CRecord :=
  let currentWindow := fwWindowStart windowMs now
  kvDel (kvDel s (windowKey key currentWindow))
    (windowKey key (currentWindow - windowMs))

/-- One consume call: identity key, arrival time, weight. -/
abbrev Call : Type := String × ℤ × ℤ

/-- Run the fixed window strategy over a sequence of calls. -/
def fwRun (limit windowMs : ℤ) (s : KVStore CRecord) :
    List Call → KVStore CRecord
  | [] => s
  | c :: rest =>
      fwRun limit windowMs (fwConsume limit windowMs s c.1 c.2.1 c.2.2).2 rest

/-- Run the sliding window strategy over a sequence of calls. -/
def swRun (limit windowMs : ℤ) (s : KVStore CRecord) :
    List Call → KVStore CRecord
  | [] => s
  | c :: rest =>
      swRun limit windowMs (swConsume limit windowMs s c.1 c.2.1 c.2.2).2 rest

/-- Run the token bucket strategy over a sequence of calls. -/
def tbRun (limit windowMs : ℤ) (s : KVStore TBBucket) :
    List Call → KVStore TBBucket
  | [] => s
  | c :: rest =>
      tbRun limit windowMs (tbConsume limit windowMs s c.1 c.2.1 c.2.2).2 rest

/-- Window-strategy store invariant: every stored record's count is
between 0 and the limit. -/
def cInv (limit : ℤ) (s : KVStore CRecord) : Prop :=
  ∀ k r e, s k = some (r, e) → 0 ≤ r.count ∧ r.count ≤ limit

/-- Token-bucket store invariant: every stored bucket holds between 0 and
limit tokens. -/
def tbInv (limit : ℤ) (s : KVStore TBBucket) : Prop :=
  ∀ k b e, s k = some (b, e) → 0 ≤ b.tokens ∧ b.tokens ≤ (limit : ℚ)

/-- MemoryStore.get: returns the raw map entry for the prefixed key.  The
source performs no expiry check here. -/
def msGet {V : Type} (keyPre : String) (s : KVStore V) (key : String) :
    Option (V × ℤ) :=
  s (keyPre ++ key)

/-- MemoryStore.set: stores the value under the prefixed key with expiry
stamp now + ttl. -/
def msSet {V : Type} (keyPre : String) (s : KVStore V) (key : String)
    (v : V) (ttl now : ℤ) : KVStore V :=
  fun k => if k = keyPre ++ key then some (v, now + ttl) else s k

/-- MemoryStore.del. -/
def msDel {V : Type} (keyPre : String) (s : KVStore V) (key : String) :
    KVStore V :=
  fun k => if k = keyPre ++ key then none else s k

/-- MemoryStore.gc: the periodic sweep removes entries whose expiry stamp
is truthy and has passed.  (A zero stamp is falsy in the source and is
kept.) -/
def msGc {V : Type} (now : ℤ) (s : KVStore V) : KVStore V :=
  fun k => match s k with
    | some (v, e) => if e ≠ 0 ∧ e ≤ now then none else some (v, e)
    | none => none

/-- Character-list test: the first list starts the second. -/
def isPreList : List Char → List Char → Bool
  | [], _ => true
  | _ :: _, [] => false
  | a :: as, b :: bs => a = b && isPreList as bs

/-- Model of JS String.startsWith: x starts with p. -/
def strStartsWith (x p : String) : Bool :=
  isPreList p.toList x.toList

/-- Model of JS String.endsWith: x ends with p. -/
def strEndsWith (x p : String) : Bool :=
  isPreList p.toList.reverse x.toList.reverse

/-- patternMatches: exact match, then trailing-star prefix match, then
the regular-expression test, with a compile failure treated as a
non-match. -/
def patternMatches (rt : String → String → Option Bool)
    (pattern path : String) : Bool :=
  if pattern = path then true
  else if strEndsWith pattern ("*") then strStartsWith path (pattern.dropRight 1)
  else (rt pattern path).getD false

/-- getPathWeight: first matching rule wins, in declaration order;
default weight 1 when no rule matches or weighting is disabled. -/
def getPathWeight (rt : String → String → Option Bool) (enabled : Bool)
    (rules : List (String × ℤ)) (path : String) : ℤ :=
  if !enabled then 1
  else match rules.find? (fun pw => patternMatches rt pw.1 path) with
    | some pw => pw.2
    | none => 1

/-- The store registry: the STORES lookup object. -/
def lookupBackend (backend : String) : Option String :=
  if backend = ("memory") then some backend
  else if backend = ("redis") then some backend
  else none

/-- The strategy registry: the STRATEGIES lookup object. -/
def lookupStrategy (strategy : String) : Option String :=
  if strategy = ("fixed") then some strategy
  else if strategy = ("sliding") then some strategy
  else if strategy = ("token") then some strategy
  else none

/-- The configuration fields that construction-time validation inspects.
hasRedisClient models the truthiness of options.redisClient. -/
structure FLConfig where
  backend : String
  strategy : String
  hasRedisClient : Bool
deriving DecidableEq, Repr

/-- flameLimit construction: look up the backend (throwing on an unknown
name), construct the store (RedisStore throws when no client handle is
supplied), then look up the strategy (throwing on an unknown name). -/
def flameLimitConstruct (c : FLConfig) : Except String (String × String) :=
  match lookupBackend c.backend with
  | none => Except.error (("Unknown backend: ") ++ c.backend)
  | some st =>
    if c.backend = ("redis") && !c.hasRedisClient then
      Except.error ("Redis client is required for RedisStore")
    else
      match lookupStrategy c.strategy with
      | none => Except.error (("Unknown strategy: ") ++ c.strategy)
      | some sg => Except.ok (st, sg)

/-- A short mixed sequence of calls. -/
def demoCalls : List Call := [(("a"), 0, 1), (("a"), 10, 2), (("b"), 20, 3)]

/-- A window store holding 4 units of a 5-unit budget in window 0. -/
def fwDemoStore : KVStore CRecord :=
  fun k => if k = windowKey ("id") 0 then
    some ({ count := 4, resetTime := 1000 }, 1000) else none

/-- A window store with an exhausted budget in window 0. -/
def fwFullStore : KVStore CRecord :=
  fun k => if k = windowKey ("id") 0 then
    some ({ count := 100, resetTime := 1000 }, 1000) else none

/-- A bucket store holding an empty, stale bucket. -/
def tbStaleStore : KVStore TBBucket :=
  fun k => if k = tbKey ("id") then
    some ({ tokens := 0, lastRefill := 0, resetTime := 1000 }, 2000) else none

/-- A concrete store for the C2 witness: one entry with expiry stamp 5. -/
def msDemoStore : KVStore ℤ :=
  fun k => if k = ("p:k") then some (7, 5) else none

/-- The declared-order weight rules of the claim. -/
def demoRules : List (String × ℤ) := [(("/api/a"), 5), (("/api/*"), 2)]

/-- Substring occurrence on character lists. -/
def hasSubList (p : List Char) : List Char → Bool
  | [] => isPreList p []
  | c :: cs => isPreList p (c :: cs) || hasSubList p cs

/-- The regular-expression oracle used by the C7 witness: the pattern
"[" fails to compile (none); any other pattern is a literal, matching
exactly the paths that contain it as a substring - which is how a JS
RegExp behaves on metacharacter-free patterns such as /api/a. -/
def demoRegexTest (p x : String) : Option Bool :=
  if p = ("[") then none else some (hasSubList p.toList x.toList)

/-! ## Properties (theorems) -/

theorem kvGet_kvSet_self {V : Type} (s : KVStore V) (k : String) (v : V)
    (ttl now : ℤ) : kvGet (kvSet s k v ttl now) k = some v := by
  simp [kvGet, kvSet]

theorem kvGet_kvSet_ne {V : Type} (s : KVStore V) (k k' : String) (v : V)
    (ttl now : ℤ) (h : k' ≠ k) : kvGet (kvSet s k v ttl now) k' = kvGet s k' := by
  simp [kvGet, kvSet, h]

theorem kvGet_kvDel_self {V : Type} (s : KVStore V) (k : String) :
    kvGet (kvDel s k) k = none := by
  simp [kvGet, kvDel]

theorem cInv_empty (limit : ℤ) : cInv limit kvEmpty := by
  intro k r e h
  simp [kvEmpty] at h

theorem tbInv_empty (limit : ℤ) : tbInv limit kvEmpty := by
  intro k b e h
  simp [kvEmpty] at h

theorem fwConsume_limited_eq (limit windowMs : ℤ) (s : KVStore CRecord)
    (key : String) (now weight : ℤ) :
    (fwConsume limit windowMs s key now weight).1.limited
      = decide (limit < (fwLoad windowMs s key now).count + weight) := rfl

theorem fwConsume_remaining_eq (limit windowMs : ℤ) (s : KVStore CRecord)
    (key : String) (now weight : ℤ) :
    (fwConsume limit windowMs s key now weight).1.remaining
      = max 0 (limit - ((fwLoad windowMs s key now).count + weight)) := rfl

theorem fwConsume_consumed_eq (limit windowMs : ℤ) (s : KVStore CRecord)
    (key : String) (now weight : ℤ) :
    (fwConsume limit windowMs s key now weight).1.consumed
      = if (fwConsume limit windowMs s key now weight).1.limited then 0
        else weight := rfl

theorem fwConsume_snd_eq (limit windowMs : ℤ) (s : KVStore CRecord)
    (key : String) (now weight : ℤ) :
    (fwConsume limit windowMs s key now weight).2
      = if (fwConsume limit windowMs s key now weight).1.limited then s
        else kvSet s (windowKey key (fwWindowStart windowMs now))
          { fwLoad windowMs s key now with
              count := (fwLoad windowMs s key now).count + weight }
          windowMs now := rfl

theorem swConsume_limited_eq (limit windowMs : ℤ) (s : KVStore CRecord)
    (key : String) (now weight : ℤ) :
    (swConsume limit windowMs s key now weight).1.limited
      = decide (limit < swEffPrev windowMs s key now
          + ((fwLoad windowMs s key now).count + weight)) := rfl

theorem swConsume_remaining_eq (limit windowMs : ℤ) (s : KVStore CRecord)
    (key : String) (now weight : ℤ) :
    (swConsume limit windowMs s key now weight).1.remaining
      = max 0 (limit - (swEffPrev windowMs s key now
          + ((fwLoad windowMs s key now).count + weight))) := rfl

theorem swConsume_consumed_eq (limit windowMs : ℤ) (s : KVStore CRecord)
    (key : String) (now weight : ℤ) :
    (swConsume limit windowMs s key now weight).1.consumed
      = if (swConsume limit windowMs s key now weight).1.limited then 0
        else weight := rfl

theorem swConsume_snd_eq (limit windowMs : ℤ) (s : KVStore CRecord)
    (key : String) (now weight : ℤ) :
    (swConsume limit windowMs s key now weight).2
      = if (swConsume limit windowMs s key now weight).1.limited then s
        else kvSet s (windowKey key (fwWindowStart windowMs now))
          { fwLoad windowMs s key now with
              count := (fwLoad windowMs s key now).count + weight }
          (windowMs * 2) now := rfl

theorem tbConsume_limited_eq (limit windowMs : ℤ) (s : KVStore TBBucket)
    (key : String) (now weight : ℤ) :
    (tbConsume limit windowMs s key now weight).1.limited
      = decide ((tbRefill limit windowMs now
          (tbBucket0 limit windowMs s key now)).tokens < (weight : ℚ)) := rfl

theorem tbConsume_remaining_eq (limit windowMs : ℤ) (s : KVStore TBBucket)
    (key : String) (now weight : ℤ) :
    (tbConsume limit windowMs s key now weight).1.remaining
      = Int.floor (max 0 ((tbRefill limit windowMs now
          (tbBucket0 limit windowMs s key now)).tokens - (weight : ℚ))) := rfl

theorem tbConsume_consumed_eq (limit windowMs : ℤ) (s : KVStore TBBucket)
    (key : String) (now weight : ℤ) :
    (tbConsume limit windowMs s key now weight).1.consumed
      = if (tbConsume limit windowMs s key now weight).1.limited then 0
        else weight := rfl

theorem tbConsume_snd_eq (limit windowMs : ℤ) (s : KVStore TBBucket)
    (key : String) (now weight : ℤ) :
    (tbConsume limit windowMs s key now weight).2
      = if (tbConsume limit windowMs s key now weight).1.limited then s
        else kvSet s (tbKey key)
          (tbDebit limit windowMs now weight
            (tbRefill limit windowMs now (tbBucket0 limit windowMs s key now)))
          (windowMs * 2) now := rfl

theorem fwConsume_snd_of_limited (limit windowMs : ℤ) (s : KVStore CRecord)
    (key : String) (now weight : ℤ)
    (h : (fwConsume limit windowMs s key now weight).1.limited = true) :
    (fwConsume limit windowMs s key now weight).2 = s := by
  rw [fwConsume_snd_eq, h]
  rfl

theorem swConsume_snd_of_limited (limit windowMs : ℤ) (s : KVStore CRecord)
    (key : String) (now weight : ℤ)
    (h : (swConsume limit windowMs s key now weight).1.limited = true) :
    (swConsume limit windowMs s key now weight).2 = s := by
  rw [swConsume_snd_eq, h]
  rfl

theorem tbConsume_snd_of_limited (limit windowMs : ℤ) (s : KVStore TBBucket)
    (key : String) (now weight : ℤ)
    (h : (tbConsume limit windowMs s key now weight).1.limited = true) :
    (tbConsume limit windowMs s key now weight).2 = s := by
  rw [tbConsume_snd_eq, h]
  rfl

theorem sub_fwWindowStart_eq_fmod (windowMs now : ℤ) :
    now - fwWindowStart windowMs now = Int.fmod now windowMs := by
  rw [fwWindowStart, Int.fmod_def]
  ring

theorem fwLoad_count_nonneg (limit windowMs : ℤ) (s : KVStore CRecord)
    (key : String) (now : ℤ) (h : cInv limit s) :
    0 ≤ (fwLoad windowMs s key now).count := by
  unfold fwLoad kvGet
  cases hs : s (windowKey key (fwWindowStart windowMs now)) with
  | none => simp
  | some p =>
    obtain ⟨r, e⟩ := p
    simpa using (h _ r e hs).1

theorem fwConsume_cInv (limit windowMs : ℤ) (s : KVStore CRecord)
    (key : String) (now weight : ℤ) (hw : 0 ≤ weight) (h : cInv limit s) :
    cInv limit (fwConsume limit windowMs s key now weight).2 := by
  by_cases hl : (fwConsume limit windowMs s key now weight).1.limited = true
  · rw [fwConsume_snd_of_limited _ _ _ _ _ _ hl]
    exact h
  · rw [Bool.not_eq_true] at hl
    have hnl : ¬ (limit < (fwLoad windowMs s key now).count + weight) := by
      have h2 := hl
      rw [fwConsume_limited_eq] at h2
      exact of_decide_eq_false h2
    have h0 := fwLoad_count_nonneg limit windowMs s key now h
    rw [fwConsume_snd_eq, hl]
    simp only [Bool.false_eq_true, if_false]
    intro k r e hk
    unfold kvSet at hk
    by_cases hkk : k = windowKey key (fwWindowStart windowMs now)
    · rw [if_pos hkk] at hk
      obtain ⟨hr, -⟩ := Prod.mk.injEq .. ▸ Option.some.inj hk
      rw [← hr]
      constructor
      · simp only []
        omega
      · simp only []
        omega
    · rw [if_neg hkk] at hk
      exact h k r e hk

theorem fwRun_cInv (limit windowMs : ℤ) (calls : List Call)
    (s : KVStore CRecord) (hw : ∀ c ∈ calls, 0 ≤ c.2.2) (h : cInv limit s) :
    cInv limit (fwRun limit windowMs s calls) := by
  induction calls generalizing s with
  | nil => exact h
  | cons c rest ih =>
    simp only [fwRun]
    exact ih _ (fun c' hc' => hw c' (List.mem_cons_of_mem _ hc'))
      (fwConsume_cInv _ _ _ _ _ _ (hw c (List.mem_cons_self _ _)) h)

theorem swTimeRatio_nonneg (windowMs now : ℤ) (hW : 0 < windowMs) :
    0 ≤ swTimeRatio windowMs now := by
  unfold swTimeRatio
  have h1 : now - fwWindowStart windowMs now < windowMs := by
    rw [sub_fwWindowStart_eq_fmod]
    exact Int.fmod_lt_of_pos now hW
  have hWQ : (0 : ℚ) < (windowMs : ℚ) := by exact_mod_cast hW
  have h2 : ((now - fwWindowStart windowMs now : ℤ) : ℚ) / (windowMs : ℚ) ≤ 1 := by
    rw [div_le_one hWQ]
    exact_mod_cast h1.le
  linarith

theorem swPrevCount_nonneg (limit windowMs : ℤ) (s : KVStore CRecord)
    (key : String) (now : ℤ) (h : cInv limit s) :
    0 ≤ swPrevCount windowMs s key now := by
  unfold swPrevCount kvGet
  cases hs : s (windowKey key (fwWindowStart windowMs now - windowMs)) with
  | none => simp
  | some p =>
    obtain ⟨r, e⟩ := p
    simpa using (h _ r e hs).1

theorem swEffPrev_nonneg (limit windowMs : ℤ) (s : KVStore CRecord)
    (key : String) (now : ℤ) (hW : 0 < windowMs) (h : cInv limit s) :
    0 ≤ swEffPrev windowMs s key now := by
  unfold swEffPrev
  rw [Int.le_floor]
  push_cast
  exact mul_nonneg
    (by exact_mod_cast swPrevCount_nonneg limit windowMs s key now h)
    (swTimeRatio_nonneg windowMs now hW)

theorem swConsume_cInv (limit windowMs : ℤ) (s : KVStore CRecord)
    (key : String) (now weight : ℤ) (hW : 0 < windowMs) (hw : 0 ≤ weight)
    (h : cInv limit s) :
    cInv limit (swConsume limit windowMs s key now weight).2 := by
  by_cases hl : (swConsume limit windowMs s key now weight).1.limited = true
  · rw [swConsume_snd_of_limited _ _ _ _ _ _ hl]
    exact h
  · rw [Bool.not_eq_true] at hl
    have hnl : ¬ (limit < swEffPrev windowMs s key now
        + ((fwLoad windowMs s key now).count + weight)) := by
      have h2 := hl
      rw [swConsume_limited_eq] at h2
      exact of_decide_eq_false h2
    have h0 := fwLoad_count_nonneg limit windowMs s key now h
    have hep := swEffPrev_nonneg limit windowMs s key now hW h
    rw [swConsume_snd_eq, hl]
    simp only [Bool.false_eq_true, if_false]
    intro k r e hk
    unfold kvSet at hk
    by_cases hkk : k = windowKey key (fwWindowStart windowMs now)
    · rw [if_pos hkk] at hk
      obtain ⟨hr, -⟩ := Prod.mk.injEq .. ▸ Option.some.inj hk
      rw [← hr]
      constructor
      · simp only []
        omega
      · simp only []
        omega
    · rw [if_neg hkk] at hk
      exact h k r e hk

theorem swRun_cInv (limit windowMs : ℤ) (calls : List Call)
    (s : KVStore CRecord) (hW : 0 < windowMs) (hw : ∀ c ∈ calls, 0 ≤ c.2.2)
    (h : cInv limit s) :
    cInv limit (swRun limit windowMs s calls) := by
  induction calls generalizing s with
  | nil => exact h
  | cons c rest ih =>
    simp only [swRun]
    exact ih _ (fun c' hc' => hw c' (List.mem_cons_of_mem _ hc'))
      (swConsume_cInv _ _ _ _ _ _ hW (hw c (List.mem_cons_self _ _)) h)

theorem tbBucket0_tokens_bounds (limit windowMs : ℤ) (s : KVStore TBBucket)
    (key : String) (now : ℤ) (hL : 0 ≤ limit) (h : tbInv limit s) :
    0 ≤ (tbBucket0 limit windowMs s key now).tokens
      ∧ (tbBucket0 limit windowMs s key now).tokens ≤ (limit : ℚ) := by
  unfold tbBucket0 kvGet
  cases hs : s (tbKey key) with
  | none =>
    constructor
    · simpa using by exact_mod_cast hL
    · simp
  | some p =>
    obtain ⟨b, e⟩ := p
    simpa using h _ b e hs

theorem tbRefill_tokens_le (limit windowMs now : ℤ) (b : TBBucket)
    (hb : b.tokens ≤ (limit : ℚ)) :
    (tbRefill limit windowMs now b).tokens ≤ (limit : ℚ) := by
  by_cases h : 0 < now - b.lastRefill
  · simp [tbRefill, h, min_le_left]
  · simp [tbRefill, h, hb]

theorem tbConsume_tbInv (limit windowMs : ℤ) (s : KVStore TBBucket)
    (key : String) (now weight : ℤ) (hL : 0 ≤ limit) (hw : 0 ≤ weight)
    (h : tbInv limit s) :
    tbInv limit (tbConsume limit windowMs s key now weight).2 := by
  by_cases hl : (tbConsume limit windowMs s key now weight).1.limited = true
  · rw [tbConsume_snd_of_limited _ _ _ _ _ _ hl]
    exact h
  · rw [Bool.not_eq_true] at hl
    have hnl : ¬ ((tbRefill limit windowMs now
        (tbBucket0 limit windowMs s key now)).tokens < (weight : ℚ)) := by
      have h2 := hl
      rw [tbConsume_limited_eq] at h2
      exact of_decide_eq_false h2
    have hb := tbBucket0_tokens_bounds limit windowMs s key now hL h
    have hle := tbRefill_tokens_le limit windowMs now
      (tbBucket0 limit windowMs s key now) hb.2
    have hwQ : (0 : ℚ) ≤ (weight : ℚ) := by exact_mod_cast hw
    rw [tbConsume_snd_eq, hl]
    simp only [Bool.false_eq_true, if_false]
    intro k b e hk
    unfold kvSet at hk
    by_cases hkk : k = tbKey key
    · rw [if_pos hkk] at hk
      obtain ⟨hb2, -⟩ := Prod.mk.injEq .. ▸ Option.some.inj hk
      rw [← hb2]
      unfold tbDebit
      constructor
      · simp only []
        linarith [not_lt.mp hnl]
      · simp only []
        linarith
    · rw [if_neg hkk] at hk
      exact h k b e hk

theorem tbRun_tbInv (limit windowMs : ℤ) (calls : List Call)
    (s : KVStore TBBucket) (hL : 0 ≤ limit) (hw : ∀ c ∈ calls, 0 ≤ c.2.2)
    (h : tbInv limit s) :
    tbInv limit (tbRun limit windowMs s calls) := by
  induction calls generalizing s with
  | nil => exact h
  | cons c rest ih =>
    simp only [tbRun]
    exact ih _ (fun c' hc' => hw c' (List.mem_cons_of_mem _ hc'))
      (tbConsume_tbInv _ _ _ _ _ _ hL (hw c (List.mem_cons_self _ _)) h)

/-- C1: for every strategy and every sequence of consume calls with
nonnegative weights, every stored window count stays at most the limit
(and nonnegative), every stored token balance stays between 0 and the
limit, and any consume call that reports limited = true returns the store
unchanged: no partial debit and no store write happens on rejection.
The store is value-semantic, as in the section-4.1 store contract and the
networked store. -/
theorem strategies_limit_invariant (limit windowMs : ℤ) :
    (∀ (s : KVStore CRecord) (key : String) (now weight : ℤ),
      (fwConsume limit windowMs s key now weight).1.limited = true →
        (fwConsume limit windowMs s key now weight).2 = s) ∧
    (∀ (s : KVStore CRecord) (key : String) (now weight : ℤ),
      (swConsume limit windowMs s key now weight).1.limited = true →
        (swConsume limit windowMs s key now weight).2 = s) ∧
    (∀ (s : KVStore TBBucket) (key : String) (now weight : ℤ),
      (tbConsume limit windowMs s key now weight).1.limited = true →
        (tbConsume limit windowMs s key now weight).2 = s) ∧
    (∀ (s : KVStore CRecord) (calls : List Call),
      (∀ c ∈ calls, 0 ≤ c.2.2) → cInv limit s →
        cInv limit (fwRun limit windowMs s calls)) ∧
    (0 < windowMs → ∀ (s : KVStore CRecord) (calls : List Call),
      (∀ c ∈ calls, 0 ≤ c.2.2) → cInv limit s →
        cInv limit (swRun limit windowMs s calls)) ∧
    (0 ≤ limit → ∀ (s : KVStore TBBucket) (calls : List Call),
      (∀ c ∈ calls, 0 ≤ c.2.2) → tbInv limit s →
        tbInv limit (tbRun limit windowMs s calls)) :=
  ⟨fun s key now weight h => fwConsume_snd_of_limited limit windowMs s key now weight h,
   fun s key now weight h => swConsume_snd_of_limited limit windowMs s key now weight h,
   fun s key now weight h => tbConsume_snd_of_limited limit windowMs s key now weight h,
   fun s calls hw h => fwRun_cInv limit windowMs calls s hw h,
   fun hW s calls hw h => swRun_cInv limit windowMs calls s hW hw h,
   fun hL s calls hw h => tbRun_tbInv limit windowMs calls s hL hw h⟩

/-- Witness for C1 at limit 5, window 1000 ms: a rejected call leaves the
store untouched, and runs of demoCalls keep every stored count and token
balance within the limit. -/
theorem strategies_limit_invariant_witness :
    (fwConsume 5 1000 kvEmpty ("a") 0 9).1.limited = true ∧
    (fwConsume 5 1000 kvEmpty ("a") 0 9).2 = kvEmpty ∧
    cInv 5 (fwRun 5 1000 kvEmpty demoCalls) ∧
    cInv 5 (swRun 5 1000 kvEmpty demoCalls) ∧
    tbInv 5 (tbRun 5 1000 kvEmpty demoCalls) := by
  refine ⟨by decide, ?_, ?_, ?_, ?_⟩
  · exact (strategies_limit_invariant 5 1000).1 kvEmpty ("a") 0 9 (by decide)
  · exact (strategies_limit_invariant 5 1000).2.2.2.1 kvEmpty demoCalls
      (by decide) (cInv_empty 5)
  · exact (strategies_limit_invariant 5 1000).2.2.2.2.1 (by decide) kvEmpty
      demoCalls (by decide) (cInv_empty 5)
  · exact (strategies_limit_invariant 5 1000).2.2.2.2.2 (by decide) kvEmpty
      demoCalls (by decide) (tbInv_empty 5)

/-- C5: for each of the three strategies, the returned decision has
consumed = 0 whenever limited = true, and consumed = weight whenever
limited = false. -/
theorem consumed_matches_limited (limit windowMs : ℤ) (key : String)
    (now weight : ℤ) :
    (∀ s : KVStore CRecord,
      ((fwConsume limit windowMs s key now weight).1.limited = true →
        (fwConsume limit windowMs s key now weight).1.consumed = 0) ∧
      ((fwConsume limit windowMs s key now weight).1.limited = false →
        (fwConsume limit windowMs s key now weight).1.consumed = weight)) ∧
    (∀ s : KVStore CRecord,
      ((swConsume limit windowMs s key now weight).1.limited = true →
        (swConsume limit windowMs s key now weight).1.consumed = 0) ∧
      ((swConsume limit windowMs s key now weight).1.limited = false →
        (swConsume limit windowMs s key now weight).1.consumed = weight)) ∧
    (∀ s : KVStore TBBucket,
      ((tbConsume limit windowMs s key now weight).1.limited = true →
        (tbConsume limit windowMs s key now weight).1.consumed = 0) ∧
      ((tbConsume limit windowMs s key now weight).1.limited = false →
        (tbConsume limit windowMs s key now weight).1.consumed = weight)) := by
  refine ⟨fun s => ⟨fun h => ?_, fun h => ?_⟩,
    fun s => ⟨fun h => ?_, fun h => ?_⟩,
    fun s => ⟨fun h => ?_, fun h => ?_⟩⟩
  · rw [fwConsume_consumed_eq, h]
    rfl
  · rw [fwConsume_consumed_eq, h]
    rfl
  · rw [swConsume_consumed_eq, h]
    rfl
  · rw [swConsume_consumed_eq, h]
    rfl
  · rw [tbConsume_consumed_eq, h]
    rfl
  · rw [tbConsume_consumed_eq, h]
    rfl

/-- Witness for C5: a rejected and an admitted call per strategy. -/
theorem consumed_matches_limited_witness :
    (fwConsume 5 1000 kvEmpty ("a") 0 9).1.consumed = 0 ∧
    (fwConsume 5 1000 kvEmpty ("a") 0 2).1.consumed = 2 ∧
    (swConsume 5 1000 kvEmpty ("a") 0 9).1.consumed = 0 ∧
    (swConsume 5 1000 kvEmpty ("a") 0 2).1.consumed = 2 ∧
    (tbConsume 5 1000 kvEmpty ("a") 0 9).1.consumed = 0 ∧
    (tbConsume 5 1000 kvEmpty ("a") 0 2).1.consumed = 2 := by
  have hsw9 : (swConsume 5 1000 kvEmpty ("a") 0 9).1.limited = true := by
    rw [swConsume_limited_eq]
    simp [swEffPrev, swPrevCount, swTimeRatio, fwLoad, kvGet, kvEmpty,
      fwWindowStart]
  have hsw2 : (swConsume 5 1000 kvEmpty ("a") 0 2).1.limited = false := by
    rw [swConsume_limited_eq]
    simp [swEffPrev, swPrevCount, swTimeRatio, fwLoad, kvGet, kvEmpty,
      fwWindowStart]
  refine ⟨((consumed_matches_limited 5 1000 ("a") 0 9).1 kvEmpty).1 (by decide),
    ((consumed_matches_limited 5 1000 ("a") 0 2).1 kvEmpty).2 (by decide),
    ((consumed_matches_limited 5 1000 ("a") 0 9).2.1 kvEmpty).1 hsw9,
    ((consumed_matches_limited 5 1000 ("a") 0 2).2.1 kvEmpty).2 hsw2,
    ((consumed_matches_limited 5 1000 ("a") 0 9).2.2 kvEmpty).1 (by decide),
    ((consumed_matches_limited 5 1000 ("a") 0 2).2.2 kvEmpty).2 (by decide)⟩

/-- C10: for each strategy, a limited decision carries remaining = 0,
because remaining is computed from the hypothetical post-debit count
clamped at zero. -/
theorem limited_implies_remaining_zero (limit windowMs : ℤ)
    (s1 s2 : KVStore CRecord) (s3 : KVStore TBBucket) (key : String)
    (now weight : ℤ) :
    ((fwConsume limit windowMs s1 key now weight).1.limited = true →
      (fwConsume limit windowMs s1 key now weight).1.remaining = 0) ∧
    ((swConsume limit windowMs s2 key now weight).1.limited = true →
      (swConsume limit windowMs s2 key now weight).1.remaining = 0) ∧
    ((tbConsume limit windowMs s3 key now weight).1.limited = true →
      (tbConsume limit windowMs s3 key now weight).1.remaining = 0) := by
  refine ⟨fun h => ?_, fun h => ?_, fun h => ?_⟩
  · rw [fwConsume_limited_eq] at h
    have := of_decide_eq_true h
    rw [fwConsume_remaining_eq, max_eq_left (by omega)]
  · rw [swConsume_limited_eq] at h
    have := of_decide_eq_true h
    rw [swConsume_remaining_eq, max_eq_left (by omega)]
  · rw [tbConsume_limited_eq] at h
    have := of_decide_eq_true h
    rw [tbConsume_remaining_eq, max_eq_left (by linarith), Int.floor_zero]

/-- Witness for C10: a limited call of each strategy has remaining 0. -/
theorem limited_implies_remaining_zero_witness :
    (fwConsume 5 1000 kvEmpty ("a") 0 9).1.remaining = 0 ∧
    (swConsume 5 1000 kvEmpty ("a") 0 9).1.remaining = 0 ∧
    (tbConsume 5 1000 kvEmpty ("a") 0 9).1.remaining = 0 := by
  have hsw : (swConsume 5 1000 kvEmpty ("a") 0 9).1.limited = true := by
    rw [swConsume_limited_eq]
    simp [swEffPrev, swPrevCount, swTimeRatio, fwLoad, kvGet, kvEmpty,
      fwWindowStart]
  refine ⟨(limited_implies_remaining_zero 5 1000 kvEmpty kvEmpty kvEmpty
      ("a") 0 9).1 (by decide),
    (limited_implies_remaining_zero 5 1000 kvEmpty kvEmpty kvEmpty
      ("a") 0 9).2.1 hsw,
    (limited_implies_remaining_zero 5 1000 kvEmpty kvEmpty kvEmpty
      ("a") 0 9).2.2 (by decide)⟩

theorem kvGet_kvDel_left {V : Type} (s : KVStore V) (k1 k2 : String) :
    kvGet (kvDel (kvDel s k1) k2) k1 = none := by
  unfold kvGet kvDel
  by_cases h : k1 = k2 <;> simp [h]

/-- C9: with limit at least 1, resetKey followed by a weight-1 consume at
the same instant always admits, for each of the three strategies,
whatever the prior store contents. -/
theorem resetKey_then_consume_admits (limit windowMs : ℤ) (hL : 1 ≤ limit)
    (s1 s2 : KVStore CRecord) (s3 : KVStore TBBucket) (key : String)
    (now : ℤ) :
    (fwConsume limit windowMs (fwResetKey windowMs s1 key now)
      key now 1).1.limited = false ∧
    (swConsume limit windowMs (swResetKey windowMs s2 key now)
      key now 1).1.limited = false ∧
    (tbConsume limit windowMs (tbResetKey s3 key) key now 1).1.limited
      = false := by
  refine ⟨?_, ?_, ?_⟩
  · have hload : fwLoad windowMs (fwResetKey windowMs s1 key now) key now
        = { count := 0, resetTime := fwWindowStart windowMs now + windowMs } := by
      unfold fwLoad fwResetKey
      rw [kvGet_kvDel_self]
      rfl
    rw [fwConsume_limited_eq, hload]
    exact decide_eq_false (by simp only [CRecord.mk.injEq]; omega)
  · have hload : fwLoad windowMs (swResetKey windowMs s2 key now) key now
        = { count := 0, resetTime := fwWindowStart windowMs now + windowMs } := by
      unfold fwLoad swResetKey
      rw [kvGet_kvDel_left]
      rfl
    have hprev : swPrevCount windowMs (swResetKey windowMs s2 key now) key now
        = 0 := by
      unfold swPrevCount swResetKey
      rw [kvGet_kvDel_self]
      rfl
    have heff : swEffPrev windowMs (swResetKey windowMs s2 key now) key now
        = 0 := by
      unfold swEffPrev
      rw [hprev]
      simp
    rw [swConsume_limited_eq, hload, heff]
    exact decide_eq_false (by simp only [CRecord.mk.injEq]; omega)
  · have hload : tbBucket0 limit windowMs (tbResetKey s3 key) key now
        = { tokens := (limit : ℚ), lastRefill := now,
            resetTime := now + windowMs } := by
      unfold tbBucket0 tbResetKey
      rw [kvGet_kvDel_self]
      rfl
    have hrefill : tbRefill limit windowMs now
        (tbBucket0 limit windowMs (tbResetKey s3 key) key now)
        = { tokens := (limit : ℚ), lastRefill := now,
            resetTime := now + windowMs } := by
      rw [hload]
      unfold tbRefill
      simp
    rw [tbConsume_limited_eq, hrefill]
    refine decide_eq_false (not_lt.mpr ?_)
    have : (1 : ℚ) ≤ (limit : ℚ) := by exact_mod_cast hL
    simpa using this

/-- Witness for C9 at limit 5, window 1000 ms, against stores holding an
exhausted budget (count 100 of 5; 0 tokens). -/
theorem resetKey_then_consume_admits_witness :
    (fwConsume 5 1000 (fwResetKey 1000 fwFullStore ("id") 0)
      ("id") 0 1).1.limited = false ∧
    (swConsume 5 1000 (swResetKey 1000 fwFullStore ("id") 0)
      ("id") 0 1).1.limited = false ∧
    (tbConsume 5 1000 (tbResetKey tbStaleStore ("id")) ("id") 0 1).1.limited
      = false :=
  resetKey_then_consume_admits 5 1000 (by decide) fwFullStore fwFullStore
    tbStaleStore ("id") 0

/-- C3 counterexample: with limit 5 and a stored count of 4, a rejected
weight-3 call returns remaining = 0, not max(0, limit - record.count) = 1
as the claim states. -/
theorem fw_rejection_remaining_cex :
    (fwConsume 5 1000 fwDemoStore ("id") 0 3).1.limited = true ∧
    (fwConsume 5 1000 fwDemoStore ("id") 0 3).1.remaining = 0 ∧
    (fwConsume 5 1000 fwDemoStore ("id") 0 3).1.remaining ≠ max 0 (5 - 4) := by
  refine ⟨by decide, by decide, by decide⟩

/-- C3 amended: a rejected fixed window call returns consumed = 0 and
remaining = max(0, limit - (record.count + weight)) - computed from the
hypothetical post-debit count, hence always 0 on rejection. -/
theorem fw_rejection_consumed_remaining (limit windowMs : ℤ)
    (s : KVStore CRecord) (key : String) (now weight : ℤ)
    (h : (fwConsume limit windowMs s key now weight).1.limited = true) :
    (fwConsume limit windowMs s key now weight).1.consumed = 0 ∧
    (fwConsume limit windowMs s key now weight).1.remaining
      = max 0 (limit - ((fwLoad windowMs s key now).count + weight)) ∧
    (fwConsume limit windowMs s key now weight).1.remaining = 0 := by
  refine ⟨?_, fwConsume_remaining_eq limit windowMs s key now weight, ?_⟩
  · rw [fwConsume_consumed_eq, h]
    rfl
  · rw [fwConsume_limited_eq] at h
    have := of_decide_eq_true h
    rw [fwConsume_remaining_eq, max_eq_left (by omega)]

/-- Witness for the amended C3 at the counterexample input. -/
theorem fw_rejection_consumed_remaining_witness :
    (fwConsume 5 1000 fwDemoStore ("id") 0 3).1.consumed = 0 ∧
    (fwConsume 5 1000 fwDemoStore ("id") 0 3).1.remaining
      = max 0 (5 - ((fwLoad 1000 fwDemoStore ("id") 0).count + 3)) ∧
    (fwConsume 5 1000 fwDemoStore ("id") 0 3).1.remaining = 0 :=
  fw_rejection_consumed_remaining 5 1000 fwDemoStore ("id") 0 3 (by decide)

/-- C4 counterexample: at time 100 against a stored bucket with 0 tokens
and lastRefill 0 (limit 10, window 1000 ms), the refill step yields 1
token in memory and the weight-5 request is rejected - and the store
still holds tokens = 0, lastRefill = 0: the refilled values were not
persisted, contradicting the claim that every consume call persists the
post-refill tokens and lastRefill. -/
theorem tb_rejected_refill_not_persisted_cex :
    (tbConsume 10 1000 tbStaleStore ("id") 100 5).1.limited = true ∧
    (tbConsume 10 1000 tbStaleStore ("id") 100 5).2 (tbKey ("id"))
      = some ({ tokens := 0, lastRefill := 0, resetTime := 1000 }, 2000) ∧
    (0 : ℤ) ≠ 100 := by
  have hlim : (tbConsume 10 1000 tbStaleStore ("id") 100 5).1.limited = true := by
    rw [tbConsume_limited_eq]
    rw [show tbBucket0 10 1000 tbStaleStore ("id") 100
        = { tokens := 0, lastRefill := 0, resetTime := 1000 } from by
      unfold tbBucket0 kvGet tbStaleStore
      simp]
    unfold tbRefill tbRefillRate
    norm_num
  refine ⟨hlim, ?_, by decide⟩
  rw [tbConsume_snd_of_limited 10 1000 tbStaleStore ("id") 100 5 hlim]
  unfold tbStaleStore
  simp

/-- C4 amended: the refill step is applied to the in-memory bucket on
every consume call, but the bucket (post-refill, post-debit) is persisted
to the store only when the request is admitted; a rejected call performs
no store write, so the stored tokens and lastRefill are unchanged on
rejection. -/
theorem tb_persist_only_when_admitted (limit windowMs : ℤ)
    (s : KVStore TBBucket) (key : String) (now weight : ℤ) :
    ((tbConsume limit windowMs s key now weight).1.limited = true →
      (tbConsume limit windowMs s key now weight).2 = s) ∧
    ((tbConsume limit windowMs s key now weight).1.limited = false →
      (tbConsume limit windowMs s key now weight).2
        = kvSet s (tbKey key)
            (tbDebit limit windowMs now weight
              (tbRefill limit windowMs now
                (tbBucket0 limit windowMs s key now)))
            (windowMs * 2) now) := by
  refine ⟨fun h => tbConsume_snd_of_limited limit windowMs s key now weight h,
    fun h => ?_⟩
  rw [tbConsume_snd_eq, h]
  rfl

/-- Witness for the amended C4: a rejected call writes nothing, an
admitted call writes the refilled-and-debited bucket. -/
theorem tb_persist_only_when_admitted_witness :
    (tbConsume 10 1000 tbStaleStore ("id") 100 5).2 = tbStaleStore ∧
    (tbConsume 10 1000 kvEmpty ("id") 0 5).2
      = kvSet kvEmpty (tbKey ("id"))
          (tbDebit 10 1000 0 5
            (tbRefill 10 1000 0 (tbBucket0 10 1000 kvEmpty ("id") 0)))
          (1000 * 2) 0 := by
  have hlim : (tbConsume 10 1000 tbStaleStore ("id") 100 5).1.limited = true := by
    rw [tbConsume_limited_eq]
    rw [show tbBucket0 10 1000 tbStaleStore ("id") 100
        = { tokens := 0, lastRefill := 0, resetTime := 1000 } from by
      unfold tbBucket0 kvGet tbStaleStore
      simp]
    unfold tbRefill tbRefillRate
    norm_num
  exact ⟨(tb_persist_only_when_admitted 10 1000 tbStaleStore ("id") 100 5).1 hlim,
    (tb_persist_only_when_admitted 10 1000 kvEmpty ("id") 0 5).2 (by decide)⟩

/-- C6: the sliding window rejects exactly when
currentRecord.count + weight + floor(previousCount * (1 - (now -
currentWindow)/windowMs)) exceeds the limit; on admission it persists the
incremented current record with expiry now + 2*windowMs; and every store
key other than the current window's key - in particular the previous
window's record - is left unchanged by the call. -/
theorem slidingWindow_admission_formula (limit windowMs : ℤ)
    (s : KVStore CRecord) (key : String) (now weight : ℤ) :
    ((swConsume limit windowMs s key now weight).1.limited = true ↔
      limit < (fwLoad windowMs s key now).count + weight
        + Int.floor ((swPrevCount windowMs s key now : ℚ)
            * (1 - ((now - fwWindowStart windowMs now : ℤ) : ℚ)
                / (windowMs : ℚ)))) ∧
    ((swConsume limit windowMs s key now weight).1.limited = false →
      (swConsume limit windowMs s key now weight).2
          (windowKey key (fwWindowStart windowMs now))
        = some ({ fwLoad windowMs s key now with
              count := (fwLoad windowMs s key now).count + weight },
            now + windowMs * 2)) ∧
    (∀ k, k ≠ windowKey key (fwWindowStart windowMs now) →
      (swConsume limit windowMs s key now weight).2 k = s k) := by
  refine ⟨?_, fun h => ?_, fun k hk => ?_⟩
  · rw [swConsume_limited_eq, decide_eq_true_eq]
    unfold swEffPrev swTimeRatio
    omega
  · rw [swConsume_snd_eq, h]
    simp only [Bool.false_eq_true, if_false]
    unfold kvSet
    rw [if_pos rfl]
  · by_cases h : (swConsume limit windowMs s key now weight).1.limited = true
    · rw [swConsume_snd_of_limited limit windowMs s key now weight h]
    · rw [Bool.not_eq_true] at h
      rw [swConsume_snd_eq, h]
      simp only [Bool.false_eq_true, if_false]
      unfold kvSet
      rw [if_neg hk]

/-- Witness for C6 at limit 5, window 1000 ms: an admitted call at time
10 writes the incremented record with expiry 10 + 2000, and leaves the
previous window's key untouched. -/
theorem slidingWindow_admission_formula_witness :
    ¬ (5 < (fwLoad 1000 kvEmpty ("a") 10).count + 1
        + Int.floor ((swPrevCount 1000 kvEmpty ("a") 10 : ℚ)
            * (1 - ((10 - fwWindowStart 1000 10 : ℤ) : ℚ) / ((1000 : ℤ) : ℚ)))) ∧
    (swConsume 5 1000 kvEmpty ("a") 10 1).2 (windowKey ("a") (fwWindowStart 1000 10))
      = some ({ fwLoad 1000 kvEmpty ("a") 10 with
            count := (fwLoad 1000 kvEmpty ("a") 10).count + 1 }, 10 + 1000 * 2) ∧
    (swConsume 5 1000 kvEmpty ("a") 10 1).2 (windowKey ("a") (-1000))
      = kvEmpty (windowKey ("a") (-1000)) := by
  have hnl : (swConsume 5 1000 kvEmpty ("a") 10 1).1.limited = false := by
    rw [swConsume_limited_eq]
    simp [swEffPrev, swPrevCount, swTimeRatio, fwLoad, kvGet, kvEmpty,
      fwWindowStart]
  refine ⟨?_, (slidingWindow_admission_formula 5 1000 kvEmpty ("a") 10 1).2.1 hnl,
    (slidingWindow_admission_formula 5 1000 kvEmpty ("a") 10 1).2.2
      (windowKey ("a") (-1000)) (by decide)⟩
  intro hcontra
  rw [← (slidingWindow_admission_formula 5 1000 kvEmpty ("a") 10 1).1] at hcontra
  rw [hnl] at hcontra
  exact Bool.false_ne_true hcontra

/-- C2 counterexample: an entry written at time 0 with TTL 5 (expiry
stamp 5) is still returned by MemoryStore.get even though its TTL has
elapsed by time 10: the source's get performs no expiry check (its result
does not depend on the call time at all), so the claim that get returns
an absent marker once the TTL has elapsed is false. -/
theorem memoryStore_get_returns_expired_cex :
    msGet ("flame-limit:") (msSet ("flame-limit:") kvEmpty ("k") (0 : ℤ) 5 0)
      ("k") = some (0, 5) ∧ (5 : ℤ) ≤ 10 := by
  constructor
  · unfold msGet msSet kvEmpty
    rw [if_pos rfl]
    decide
  · decide

/-- C2 amended: MemoryStore.get returns whatever the map holds, including
a logically expired entry; an expired entry becomes absent only once the
periodic gc sweep has removed it. -/
theorem memoryStore_expired_until_gc {V : Type} (keyPre : String)
    (s : KVStore V) (key : String) (v : V) (e now : ℤ)
    (hs : s (keyPre ++ key) = some (v, e)) (he : e ≤ now) (h0 : e ≠ 0) :
    msGet keyPre s key = some (v, e) ∧
    msGet keyPre (msGc now s) key = none := by
  constructor
  · unfold msGet
    exact hs
  · unfold msGet msGc
    rw [hs]
    simp [he, h0]

/-- Witness for the amended C2 at time 10. -/
theorem memoryStore_expired_until_gc_witness :
    msGet ("p:") msDemoStore ("k") = some (7, 5) ∧
    msGet ("p:") (msGc 10 msDemoStore) ("k") = none :=
  memoryStore_expired_until_gc ("p:") msDemoStore ("k") 7 5 10
    (by decide) (by decide) (by decide)

/-- C7: with rules /api/a -> 5, /api/* -> 2 in declaration order and any
regular-expression oracle under which the literal pattern /api/a does not
match /api/b (as in JS), path /api/a resolves to weight 5, /api/b to
weight 2, any path matched by no rule to weight 1, and a pattern that is
neither an exact match nor a star-suffixed prefix whose compilation fails
(oracle returns none) matches no path - patternMatches is total, so no
exception escapes. -/
theorem pathWeight_resolution (rt : String → String → Option Bool)
    (hab : rt ("/api/a") ("/api/b") = some false) :
    getPathWeight rt true demoRules ("/api/a") = 5 ∧
    getPathWeight rt true demoRules ("/api/b") = 2 ∧
    (∀ path, (∀ pr ∈ demoRules, patternMatches rt pr.1 path = false) →
      getPathWeight rt true demoRules path = 1) ∧
    (∀ pat path, pat ≠ path → strEndsWith pat ("*") = false →
      rt pat path = none → patternMatches rt pat path = false) := by
  refine ⟨?_, ?_, fun path hnone => ?_, fun pat path h1 h2 h3 => ?_⟩
  · have h1 : patternMatches rt ("/api/a") ("/api/a") = true := by
      unfold patternMatches
      rw [if_pos rfl]
    unfold getPathWeight demoRules
    rw [List.find?_cons_of_pos _ (by simp [h1])]
    rfl
  · have h1 : patternMatches rt ("/api/a") ("/api/b") = false := by
      unfold patternMatches
      rw [if_neg (by decide), if_neg (by decide), hab]
      rfl
    have h2 : patternMatches rt ("/api/*") ("/api/b") = true := by
      unfold patternMatches
      rw [if_neg (by decide), if_pos (by decide)]
      decide
    unfold getPathWeight demoRules
    rw [List.find?_cons_of_neg _ (by simp [h1]),
      List.find?_cons_of_pos _ (by simp [h2])]
    rfl
  · unfold getPathWeight
    rw [List.find?_eq_none.mpr (fun x hx => by simp [hnone x hx])]
    rfl
  · unfold patternMatches
    rw [if_neg h1, if_neg (by simp [h2]), h3]
    rfl

/-- Witness for C7 under the concrete oracle. -/
theorem pathWeight_resolution_witness :
    demoRegexTest ("/api/a") ("/api/b") = some false ∧
    getPathWeight demoRegexTest true demoRules ("/api/a") = 5 ∧
    getPathWeight demoRegexTest true demoRules ("/api/b") = 2 ∧
    getPathWeight demoRegexTest true demoRules ("/other") = 1 ∧
    patternMatches demoRegexTest ("[") ("/x") = false := by
  refine ⟨by decide, (pathWeight_resolution demoRegexTest (by decide)).1,
    (pathWeight_resolution demoRegexTest (by decide)).2.1,
    (pathWeight_resolution demoRegexTest (by decide)).2.2.1 ("/other")
      (by decide),
    (pathWeight_resolution demoRegexTest (by decide)).2.2.2 ("[") ("/x")
      (by decide) (by decide) (by decide)⟩

/-- C8: construction fails (with an error) on an unrecognized backend
name, on an unrecognized strategy name, and when the redis backend is
selected without a client handle; it succeeds on every well-formed
configuration.  In the embedding each strategy's consume is a total
function into a decision and a store, with no configuration lookup on the
request path, so a configuration error cannot arise at consume time. -/
theorem construction_validation (c : FLConfig) :
    (c.backend ≠ ("memory") → c.backend ≠ ("redis") →
      ∃ e, flameLimitConstruct c = Except.error e) ∧
    (c.strategy ≠ ("fixed") → c.strategy ≠ ("sliding") →
      c.strategy ≠ ("token") →
      ∃ e, flameLimitConstruct c = Except.error e) ∧
    (c.backend = ("redis") → c.hasRedisClient = false →
      ∃ e, flameLimitConstruct c = Except.error e) ∧
    ((c.backend = ("memory") ∨ c.backend = ("redis")) →
      (c.strategy = ("fixed") ∨ c.strategy = ("sliding")
        ∨ c.strategy = ("token")) →
      (c.backend = ("redis") → c.hasRedisClient = true) →
      ∃ r, flameLimitConstruct c = Except.ok r) := by
  refine ⟨fun h1 h2 => ?_, fun h1 h2 h3 => ?_, fun h1 h2 => ?_,
    fun h1 h2 h3 => ?_⟩
  · refine ⟨("Unknown backend: ") ++ c.backend, ?_⟩
    unfold flameLimitConstruct lookupBackend
    simp [h1, h2]
  · by_cases hb1 : c.backend = ("memory")
    · refine ⟨("Unknown strategy: ") ++ c.strategy, ?_⟩
      unfold flameLimitConstruct lookupBackend lookupStrategy
      simp [hb1, h1, h2, h3]
    · by_cases hb2 : c.backend = ("redis")
      · by_cases hc : c.hasRedisClient = true
        · refine ⟨("Unknown strategy: ") ++ c.strategy, ?_⟩
          unfold flameLimitConstruct lookupBackend lookupStrategy
          simp [hb1, hb2, hc, h1, h2, h3]
        · refine ⟨("Redis client is required for RedisStore"), ?_⟩
          rw [Bool.not_eq_true] at hc
          unfold flameLimitConstruct lookupBackend
          simp [hb1, hb2, hc]
      · refine ⟨("Unknown backend: ") ++ c.backend, ?_⟩
        unfold flameLimitConstruct lookupBackend
        simp [hb1, hb2]
  · refine ⟨("Redis client is required for RedisStore"), ?_⟩
    unfold flameLimitConstruct lookupBackend
    simp [h1, h2]
  · refine ⟨(c.backend, c.strategy), ?_⟩
    rcases h1 with hb | hb
    · unfold flameLimitConstruct lookupBackend lookupStrategy
      rcases h2 with hs | hs | hs <;> simp [hb, hs]
    · have hcl := h3 hb
      unfold flameLimitConstruct lookupBackend lookupStrategy
      rcases h2 with hs | hs | hs <;> simp [hb, hs, hcl]

/-- Witness for C8: concrete ill-formed and well-formed configurations. -/
theorem construction_validation_witness :
    (∃ e, flameLimitConstruct
      { backend := ("file"), strategy := ("fixed"), hasRedisClient := false }
        = Except.error e) ∧
    (∃ e, flameLimitConstruct
      { backend := ("memory"), strategy := ("leaky"), hasRedisClient := false }
        = Except.error e) ∧
    (∃ e, flameLimitConstruct
      { backend := ("redis"), strategy := ("fixed"), hasRedisClient := false }
        = Except.error e) ∧
    (∃ r, flameLimitConstruct
      { backend := ("memory"), strategy := ("sliding"), hasRedisClient := false }
        = Except.ok r) := by
  refine ⟨(construction_validation _).1 (by decide) (by decide),
    (construction_validation _).2.1 (by decide) (by decide) (by decide),
    (construction_validation _).2.2.1 (by decide) (by decide),
    (construction_validation _).2.2.2 (Or.inl (by decide))
      (Or.inr (Or.inl (by decide))) (fun h => absurd h (by decide))⟩

end FlameLimit
